import Mathlib

/-!
Shallow embedding of the usage-dashboard server (Express + PostgreSQL).
The authoritative source is the enhanced server variant; it registers the
routes, the requireToken middleware, a per-IP fixed-window rate limiter on
the usage ingestion endpoint, and hand-written SQL per endpoint.
Timestamps are modelled as integers (seconds); the SQL intervals of
24 hours, 7 days and 1 day become 86400, 7 * 86400 and 86400 seconds.
-/

namespace UsageDashboard

/-- JSVal models a JavaScript JSON value as it appears in a parsed request
body: null, undefined (an absent field), a string, an integer number or a
boolean. -/
inductive JSVal where
  | jsNull
  | jsUndefined
  | str (s : String)
  | num (n : Int)
  | jsBool (b : Bool)
deriving DecidableEq, Repr

/-- truthy models JavaScript truthiness: null, undefined, the empty string,
the number 0 and false are falsy; everything else is truthy. -/
def JSVal.truthy : JSVal → Bool
  | .jsNull => false
  | .jsUndefined => false
  | .str s => !(s == "")
  | .num n => !(n == 0)
  | .jsBool b => b

/-- orNull models the JavaScript expression x or-else null, used by the
handlers to default optional fields: a falsy value becomes null. -/
def orNull (v : JSVal) : JSVal :=
  if v.truthy then v else .jsNull

/-- withDefault models a destructuring default such as environment = prod:
the default applies exactly when the field is undefined (absent). -/
def withDefault (v d : JSVal) : JSVal :=
  if v = .jsUndefined then d else v

/-- Body is a parsed JSON request body: an association list of fields. -/
abbrev Body := List (String × JSVal)

/-- getField reads a field of the body; an absent field is undefined. -/
def getField (b : Body) (k : String) : JSVal :=
  match b.find? (fun p => p.1 == k) with
  | some p => p.2
  | none => .jsUndefined

/-- AppRow is a row of the apps table: bigserial id, unique slug, name,
optional repo and public urls, creation timestamp defaulting to now. -/
structure AppRow where
  id : Nat
  slug : JSVal
  name : JSVal
  repo_url : JSVal
  public_url : JSVal
  created_at : Int
deriving DecidableEq, Repr

/-- DeploymentRow is a row of the deployments table: bigserial id, owning
app id, environment (not null, default prod), optional version, note and
deployed_by, and a deploy timestamp defaulting to now. -/
structure DeploymentRow where
  id : Nat
  app_id : Nat
  environment : JSVal
  version : JSVal
  note : JSVal
  deployed_by : JSVal
  deployed_at : Int
deriving DecidableEq, Repr

/-- UsageEventRow is a row of the usage_events table: bigserial id, owning
app id, timestamp defaulting to now, kind (not null, default request) and
the optional method, path, status, ip, user_agent and error_message. -/
structure UsageEventRow where
  id : Nat
  app_id : Nat
  ts : Int
  kind : JSVal
  method : JSVal
  path : JSVal
  status : JSVal
  ip : JSVal
  user_agent : JSVal
  error_message : JSVal
deriving DecidableEq, Repr

/-- DB is the database state: the three tables plus the next value of each
bigserial sequence (sequences start at 1). -/
structure DB where
  apps : List AppRow
  deployments : List DeploymentRow
  usage_events : List UsageEventRow
  nextAppId : Nat
  nextDeployId : Nat
  nextUsageId : Nat
deriving DecidableEq, Repr

/-- emptyDB is a freshly initialised database. -/
def emptyDB : DB :=
  { apps := [], deployments := [], usage_events := []
    nextAppId := 1, nextDeployId := 1, nextUsageId := 1 }

/-- isSpaceChar models the regex character class backslash-s for the
Bearer prefix stripping. -/
def isSpaceChar (c : Char) : Bool :=
  c == ' ' || c == '\t' || c == '\n' || c == '\r' || c == '\x0b' || c == '\x0c'

/-- stripBearer models replacing one match of the case-insensitive regex
anchored at the start, the word Bearer followed by one or more whitespace
characters, with the empty string. -/
def stripBearer (h : String) : String :=
  match h.toList with
  | c1 :: c2 :: c3 :: c4 :: c5 :: c6 :: rest =>
      if [c1, c2, c3, c4, c5, c6].map Char.toLower = "bearer".toList
          && (match rest with
              | c :: _ => isSpaceChar c
              | [] => false) then
        String.mk (rest.dropWhile isSpaceChar)
      else h
  | _ => h

/-- AuthErr is an outcome of the requireToken middleware. -/
inductive AuthErr where
  | server_not_configured
  | unauthorized
deriving DecidableEq, Repr

/-- tokenMissing models the falsiness test on the configured token: the
environment variable is unset, or set to the empty string. -/
def tokenMissing (env : Option String) : Bool :=
  match env with
  | none => true
  | some s => s == ""

/-- requireToken embeds the auth middleware: read the configured token from
the environment, strip the Bearer prefix from the authorization header when
present, then fail closed with a server error when no token is configured,
reject with unauthorized when the presented token differs, and otherwise
pass through to the handler. -/
def requireToken (env : Option String) (authorization : Option String) :
    Option AuthErr :=
  let expected := env
  let got := authorization.map stripBearer
  if tokenMissing expected then some .server_not_configured
  else if got ≠ expected then some .unauthorized
  else none

/-- OverviewRow is one row of the dashboard overview response: app columns,
the latest-deployment columns (null via the left join when the app has no
deployment) and the coalesced 24-hour hit count. -/
structure OverviewRow where
  slug : JSVal
  name : JSVal
  public_url : JSVal
  repo_url : JSVal
  deployed_at : Option Int
  environment : Option JSVal
  version : Option JSVal
  note : Option JSVal
  hits_24h : Nat
deriving DecidableEq, Repr

/-- DeployHistRow is one row of the deployment-history response. -/
structure DeployHistRow where
  deployed_at : Int
  environment : JSVal
  version : JSVal
  note : JSVal
  deployed_by : JSVal
  app_name : JSVal
  app_slug : JSVal
deriving DecidableEq, Repr

/-- RouteRow is one row of the per-route analytics response; avg_status is
the rounded one-decimal mean status represented in tenths, null when no
event of the group has a numeric status. -/
structure RouteRow where
  path : JSVal
  method : JSVal
  total_hits : Nat
  errors : Nat
  avg_status : Option Int
deriving DecidableEq, Repr

/-- ErrorRow is one row of the error-feed response. -/
structure ErrorRow where
  app_name : JSVal
  path : JSVal
  method : JSVal
  status : JSVal
  error_message : JSVal
  ts : Int
  ip : JSVal
deriving DecidableEq, Repr

/-- HResp is the JSON response of a request, tagged by endpoint shape.
Success responses carry HTTP status 200; errR carries its status code and
machine-readable error code; rateLimited is the 429 limiter message with
its retry hint. -/
inductive HResp where
  | errR (status : Nat) (code : String)
  | rateLimited (code : String) (retry_after : Nat)
  | okApp (row : AppRow)
  | okDeployment (row : DeploymentRow)
  | okUsage (row : UsageEventRow)
  | okOverview (rows : List OverviewRow)
  | okAnalytics (daily : List (Int × Nat)) (by_app : List (JSVal × Nat))
      (recent_deployments_count : Nat)
  | okDeployHist (rows : List DeployHistRow)
  | okRoutes (rows : List RouteRow)
  | okErrors (rows : List ErrorRow)
  | okPrune (pruned : Nat) (retention_days : JSVal)
  | okStats (total_apps : Nat) (hits_24h : Nat) (errors_24h : Nat)
      (deploys_7d : Nat)
  | okHealth
deriving DecidableEq, Repr

/-- statusCode gives the HTTP status of a response; res.json defaults
to 200 on the success paths. -/
def HResp.statusCode : HResp → Nat
  | .errR s _ => s
  | .rateLimited _ _ => 429
  | _ => 200

/-- isErrorResp holds on the two rejection shapes. -/
def HResp.isErrorResp : HResp → Bool
  | .errR _ _ => true
  | .rateLimited _ _ => true
  | _ => false

/-- upsertApp embeds the insert-on-conflict statement of the apps endpoint:
on a slug conflict it updates name, repo_url and public_url in place,
otherwise it appends a fresh row with the next sequence id; it returns the
new state and the returned row. -/
def upsertApp (db : DB) (now : Int) (slug name repo_url public_url : JSVal) :
    DB × AppRow :=
  match db.apps.find? (fun a => a.slug == slug) with
  | some a =>
      let a2 : AppRow :=
        { a with name := name, repo_url := repo_url, public_url := public_url }
      ({ db with apps := db.apps.map (fun b => if b.slug == slug then a2 else b) },
       a2)
  | none =>
      let a : AppRow :=
        { id := db.nextAppId, slug := slug, name := name, repo_url := repo_url
          public_url := public_url, created_at := now }
      ({ db with apps := db.apps ++ [a], nextAppId := db.nextAppId + 1 }, a)

/-- postApps embeds the apps ingestion handler: destructure slug, name,
repo_url and public_url from the body, reject with 400 when slug or name is
falsy, otherwise upsert with the optional urls defaulted through orNull. -/
def postApps (db : DB) (now : Int) (body : Body) : DB × HResp :=
  let slug := getField body "slug"
  let name := getField body "name"
  let repo_url := getField body "repo_url"
  let public_url := getField body "public_url"
  if !slug.truthy || !name.truthy then
    (db, .errR 400 "slug_and_name_required")
  else
    let (db2, row) := upsertApp db now slug name (orNull repo_url) (orNull public_url)
    (db2, .okApp row)

/-- findAppBySlug embeds the select-id-by-slug lookup used before the two
log inserts. Sequence ids start at 1, so the falsiness test on the fetched
id in the source is equivalent to row absence. -/
def findAppBySlug (db : DB) (slug : JSVal) : Option AppRow :=
  db.apps.find? (fun a => a.slug == slug)

/-- postDeployments embeds the deployment ingestion handler: destructure
the body with environment defaulting to prod, reject with 400 when
app_slug is falsy, reject with 404 when no app has the slug, otherwise
insert a deployment row whose optional columns go through orNull and whose
timestamp defaults to now. -/
def postDeployments (db : DB) (now : Int) (body : Body) : DB × HResp :=
  let app_slug := getField body "app_slug"
  let environment := withDefault (getField body "environment") (.str "prod")
  let version := getField body "version"
  let note := getField body "note"
  let deployed_by := getField body "deployed_by"
  if !app_slug.truthy then (db, .errR 400 "app_slug_required")
  else
    match findAppBySlug db app_slug with
    | none => (db, .errR 404 "app_not_found")
    | some a =>
        let row : DeploymentRow :=
          { id := db.nextDeployId, app_id := a.id, environment := environment
            version := orNull version, note := orNull note
            deployed_by := orNull deployed_by, deployed_at := now }
        ({ db with deployments := db.deployments ++ [row]
                   nextDeployId := db.nextDeployId + 1 },
         .okDeployment row)

/-- postUsage embeds the usage ingestion handler body (the part behind the
limiter and the auth middleware): destructure with kind defaulting to
request, reject with 400 when app_slug is falsy, reject with 404 when no
app has the slug, otherwise insert a usage event whose optional columns go
through orNull and whose timestamp defaults to now. -/
def postUsage (db : DB) (now : Int) (body : Body) : DB × HResp :=
  let app_slug := getField body "app_slug"
  let kind := withDefault (getField body "kind") (.str "request")
  let method := getField body "method"
  let path := getField body "path"
  let status := getField body "status"
  let ip := getField body "ip"
  let user_agent := getField body "user_agent"
  let error_message := getField body "error_message"
  if !app_slug.truthy then (db, .errR 400 "app_slug_required")
  else
    match findAppBySlug db app_slug with
    | none => (db, .errR 404 "app_not_found")
    | some a =>
        let row : UsageEventRow :=
          { id := db.nextUsageId, app_id := a.id, ts := now, kind := kind
            method := orNull method, path := orNull path
            status := orNull status, ip := orNull ip
            user_agent := orNull user_agent
            error_message := orNull error_message }
        ({ db with usage_events := db.usage_events ++ [row]
                   nextUsageId := db.nextUsageId + 1 },
         .okUsage row)

/-- nameKey renders a stored value as the text the database would order by
in an order-by-name clause over a text column. -/
def nameKey : JSVal → String
  | .str s => s
  | .num n => toString n
  | .jsBool b => toString b
  | .jsNull => ""
  | .jsUndefined => ""

/-- pickLatest is the fold step of the distinct-on common table expression of the
overview query: among the deployments of one app, ordered by deployed_at
descending, keep the first row, that is a row of maximal timestamp. -/
def pickLatest (acc : Option DeploymentRow) (d : DeploymentRow) :
    Option DeploymentRow :=
  match acc with
  | none => some d
  | some m => if m.deployed_at < d.deployed_at then some d else acc

/-- lastDeploy folds pickLatest over the deployments of one app, keeping
a row of maximal deployed_at, as the distinct-on query does. -/
def lastDeploy (ds : List DeploymentRow) (appId : Nat) : Option DeploymentRow :=
  (ds.filter (fun d => d.app_id == appId)).foldl pickLatest none

/-- inWindow24h tests membership in the trailing 24-hour window. -/
def inWindow24h (now : Int) (ts : Int) : Bool :=
  now - 86400 ≤ ts

/-- inWindow7d tests membership in the trailing 7-day window. -/
def inWindow7d (now : Int) (ts : Int) : Bool :=
  now - 7 * 86400 ≤ ts

/-- usage24hGroups embeds the usage_24h common table expression of the
overview query: group the events of the trailing 24 hours by app id and
count each group. -/
def usage24hGroups (evs : List UsageEventRow) (now : Int) : List (Nat × Nat) :=
  let window := evs.filter (fun e => inWindow24h now e.ts)
  ((window.map (fun e => e.app_id)).dedup).map
    (fun i => (i, (window.filter (fun e => e.app_id == i)).length))

/-- hitsFor embeds the coalesce over the left join with the usage_24h
groups: the count of the matching group, and 0 when no group matches. -/
def hitsFor (groups : List (Nat × Nat)) (appId : Nat) : Nat :=
  match groups.find? (fun p => p.1 == appId) with
  | some p => p.2
  | none => 0

/-- buildOverviewRow assembles one row of the overview response for one
app: the app columns, the latest-deployment columns through the left join
(null when the app has no deployment) and the coalesced 24-hour count. -/
def buildOverviewRow (ds : List DeploymentRow) (groups : List (Nat × Nat))
    (a : AppRow) : OverviewRow :=
  let ld := lastDeploy ds a.id
  { slug := a.slug, name := a.name, public_url := a.public_url
    repo_url := a.repo_url
    deployed_at := ld.map (fun d => d.deployed_at)
    environment := ld.map (fun d => d.environment)
    version := ld.map (fun d => d.version)
    note := ld.map (fun d => d.note)
    hits_24h := hitsFor groups a.id }

/-- appNameLe is the order-by-name-ascending comparison on apps. -/
def appNameLe (a b : AppRow) : Prop :=
  nameKey a.name ≤ nameKey b.name

instance : DecidableRel appNameLe := fun a b =>
  inferInstanceAs (Decidable (nameKey a.name ≤ nameKey b.name))

/-- overviewRows embeds the overview query: all apps ordered by name
ascending, each joined with its latest deployment and 24-hour count. -/
def overviewRows (db : DB) (now : Int) : List OverviewRow :=
  (List.insertionSort appNameLe db.apps).map
    (buildOverviewRow db.deployments (usage24hGroups db.usage_events now))

/-- getOverview embeds the overview endpoint handler. -/
def getOverview (db : DB) (now : Int) : DB × HResp :=
  (db, .okOverview (overviewRows db now))

/-- dayBucket embeds date_trunc to the day over a timestamp, as the
floor-division day index. -/
def dayBucket (ts : Int) : Int :=
  Int.fdiv ts 86400

/-- dateLe orders daily rows by date ascending. -/
def dateLe (a b : Int × Nat) : Prop := a.1 ≤ b.1

instance : DecidableRel dateLe := fun a b =>
  inferInstanceAs (Decidable (a.1 ≤ b.1))

/-- analyticsDaily embeds the daily query of the analytics endpoint: the
events of the trailing 7 days grouped by truncated day, each group counted,
ordered by date ascending. -/
def analyticsDaily (evs : List UsageEventRow) (now : Int) : List (Int × Nat) :=
  let window := evs.filter (fun e => inWindow7d now e.ts)
  List.insertionSort dateLe
    (((window.map (fun e => dayBucket e.ts)).dedup).map
      (fun d => (d, (window.filter (fun e => dayBucket e.ts == d)).length)))

/-- countDesc orders grouped rows by total descending. -/
def countDesc {α : Type} (a b : α × Nat) : Prop := b.2 ≤ a.2

instance {α : Type} : DecidableRel (countDesc (α := α)) := fun a b =>
  inferInstanceAs (Decidable (b.2 ≤ a.2))

/-- analyticsByApp embeds the by-app query of the analytics endpoint: the
events of the trailing 7 days inner-joined with apps, grouped by app name,
counted, ordered by total descending, limited to 10. -/
def analyticsByApp (db : DB) (now : Int) : List (JSVal × Nat) :=
  let window := db.usage_events.filter (fun e => inWindow7d now e.ts)
  let joined := window.filterMap
    (fun e => (db.apps.find? (fun a => a.id == e.app_id)).map (fun a => a.name))
  (List.insertionSort countDesc
    ((joined.dedup).map (fun n => (n, (joined.filter (fun m => m == n)).length)))).take 10

/-- recentDeploysCount embeds the deployment count of the trailing 7 days. -/
def recentDeploysCount (db : DB) (now : Int) : Nat :=
  (db.deployments.filter (fun d => inWindow7d now d.deployed_at)).length

/-- getAnalytics embeds the analytics endpoint handler: three queries run
against one snapshot; the recent count always has its single row, so the
or-else-zero on it is the count itself. -/
def getAnalytics (db : DB) (now : Int) : DB × HResp :=
  (db, .okAnalytics (analyticsDaily db.usage_events now) (analyticsByApp db now)
        (recentDeploysCount db now))

/-- deployDesc orders deployments by deployed_at descending. -/
def deployDesc (a b : DeploymentRow) : Prop := b.deployed_at ≤ a.deployed_at

instance : DecidableRel deployDesc := fun a b =>
  inferInstanceAs (Decidable (b.deployed_at ≤ a.deployed_at))

/-- getDeployHist embeds the deployment-history endpoint: all deployments
inner-joined with apps, ordered by deployed_at descending, limited to 50. -/
def getDeployHist (db : DB) : DB × HResp :=
  let rows := ((List.insertionSort deployDesc db.deployments).filterMap
    (fun d => (db.apps.find? (fun a => a.id == d.app_id)).map
      (fun a => ({ deployed_at := d.deployed_at, environment := d.environment
                   version := d.version, note := d.note
                   deployed_by := d.deployed_by, app_name := a.name
                   app_slug := a.slug } : DeployHistRow)))).take 50
  (db, .okDeployHist rows)

/-- statusGE400 tests the SQL predicate status at least 400: a null status
makes the predicate unknown, hence false. -/
def statusGE400 : JSVal → Bool
  | .num n => 400 ≤ n
  | _ => false

/-- statusNum extracts a numeric status for the mean, skipping nulls as
SQL avg does. -/
def statusNum : JSVal → Option Int
  | .num n => some n
  | _ => none

/-- roundTenthsHalfUp renders a mean rounded to one decimal in tenths:
the numerator is a sum of statuses, the denominator a positive count. -/
def roundTenthsHalfUp (sum : Int) (len : Nat) : Int :=
  Int.fdiv (20 * sum + len) (2 * len)

/-- routesDesc orders route rows by total hits descending. -/
def routesDesc (a b : RouteRow) : Prop := b.total_hits ≤ a.total_hits

instance : DecidableRel routesDesc := fun a b =>
  inferInstanceAs (Decidable (b.total_hits ≤ a.total_hits))

/-- getRoutes embeds the per-route analytics endpoint: the events of the
trailing 7 days with a non-null path, grouped by the path and method pair,
with total count, error sub-count and rounded mean status, ordered by total
descending, limited to 50. -/
def getRoutes (db : DB) (now : Int) : DB × HResp :=
  let window := db.usage_events.filter
    (fun e => inWindow7d now e.ts && !(e.path == JSVal.jsNull))
  let keys := (window.map (fun e => (e.path, e.method))).dedup
  let rows := (List.insertionSort routesDesc (keys.map (fun k =>
    let grp := window.filter (fun e => (e.path, e.method) == k)
    let nums := grp.filterMap (fun e => statusNum e.status)
    ({ path := k.1, method := k.2, total_hits := grp.length
       errors := (grp.filter (fun e => statusGE400 e.status)).length
       avg_status :=
         match nums.length with
         | 0 => none
         | _ => some (roundTenthsHalfUp nums.sum nums.length) } : RouteRow)))).take 50
  (db, .okRoutes rows)

/-- eventDesc orders usage events by timestamp descending. -/
def eventDesc (a b : UsageEventRow) : Prop := b.ts ≤ a.ts

instance : DecidableRel eventDesc := fun a b =>
  inferInstanceAs (Decidable (b.ts ≤ a.ts))

/-- getErrors embeds the error-feed endpoint: the events of the trailing
24 hours with status at least 400, inner-joined with apps, ordered by
timestamp descending, limited to 100. -/
def getErrors (db : DB) (now : Int) : DB × HResp :=
  let window := db.usage_events.filter
    (fun e => statusGE400 e.status && inWindow24h now e.ts)
  let rows := ((List.insertionSort eventDesc window).filterMap
    (fun e => (db.apps.find? (fun a => a.id == e.app_id)).map
      (fun a => ({ app_name := a.name, path := e.path, method := e.method
                   status := e.status, error_message := e.error_message
                   ts := e.ts, ip := e.ip } : ErrorRow)))).take 100
  (db, .okErrors rows)

/-- pruneCore embeds the delete statement of the prune endpoint with a
numeric day count: delete the usage events with timestamp strictly below
now minus that many days, returning the surviving state and the count of
deleted rows. -/
def pruneCore (db : DB) (now : Int) (days : Int) : DB × Nat :=
  let cutoff := now - 86400 * days
  let deleted := db.usage_events.filter (fun e => e.ts < cutoff)
  let kept := db.usage_events.filter (fun e => !(e.ts < cutoff))
  ({ db with usage_events := kept }, deleted.length)

/-- postPrune embeds the prune endpoint handler: days is destructured from
the body with default 90; a numeric value, or a numeric string coerced by
the database, drives the delete; an explicit null parameter makes the SQL
comparison unknown so nothing is deleted; any other value is rejected by
the database and surfaces as a generic server error. -/
def postPrune (db : DB) (now : Int) (body : Body) : DB × HResp :=
  let daysV := withDefault (getField body "days") (.num 90)
  match daysV with
  | .num n =>
      let (db2, cnt) := pruneCore db now n
      (db2, .okPrune cnt daysV)
  | .jsNull => (db, .okPrune 0 daysV)
  | .str s =>
      match s.toInt? with
      | some n =>
          let (db2, cnt) := pruneCore db now n
          (db2, .okPrune cnt daysV)
      | none => (db, .errR 500 "db_error")
  | _ => (db, .errR 500 "db_error")

/-- getStats embeds the unauthenticated stats endpoint: total app count,
24-hour hit count, 24-hour error count and 7-day deployment count. -/
def getStats (db : DB) (now : Int) : DB × HResp :=
  (db, .okStats db.apps.length
        ((db.usage_events.filter (fun e => inWindow24h now e.ts)).length)
        ((db.usage_events.filter
            (fun e => inWindow24h now e.ts && statusGE400 e.status)).length)
        ((db.deployments.filter (fun d => inWindow7d now d.deployed_at)).length))

/-- getHealth embeds the health endpoint on the reachable-database path:
the select-1 round trip succeeds and the handler responds 200. -/
def getHealth (db : DB) : DB × HResp :=
  (db, .okHealth)

/-- ApiRoute enumerates the eleven registered endpoints. -/
inductive ApiRoute where
  | health
  | apiApps
  | apiDeployments
  | apiUsage
  | dashOverview
  | dashAnalytics
  | dashDeployments
  | dashRoutes
  | dashErrors
  | adminPrune
  | apiStats
deriving DecidableEq, Repr

/-- routeHasRequireToken records, per route registration, whether the
requireToken middleware is in its chain; only the health check and the
stats summary omit it. -/
def routeHasRequireToken : ApiRoute → Bool
  | .health => false
  | .apiStats => false
  | _ => true

/-- Req is an incoming HTTP request: the authorization header when present,
the parsed JSON body, and the source ip the limiter keys on. -/
structure Req where
  authorization : Option String
  body : Body
  ip : String

/-- RateState is the per-ip counter map of the current fixed one-minute
window of the usage limiter. -/
abbrev RateState := List (String × Nat)

/-- rateGet reads the current count of an ip. -/
def rateGet (rs : RateState) (ip : String) : Nat :=
  match rs.find? (fun p => p.1 == ip) with
  | some p => p.2
  | none => 0

/-- rateSet writes the count of an ip. -/
def rateSet (rs : RateState) (ip : String) (n : Nat) : RateState :=
  match rs.find? (fun p => p.1 == ip) with
  | some _ => rs.map (fun p => if p.1 == ip then (p.1, n) else p)
  | none => rs ++ [(ip, n)]

/-- usageLimiterMax is the limiter configuration: at most 100 requests per
ip in each one-minute window. -/
def usageLimiterMax : Nat := 100

/-- errResp maps an auth middleware outcome to its JSON error response. -/
def errResp : AuthErr → HResp
  | .server_not_configured => .errR 500 "server_not_configured"
  | .unauthorized => .errR 401 "unauthorized"

/-- runAuthed runs the requireToken middleware in front of a handler: an
auth failure short-circuits with the error response and an untouched
database, otherwise the handler runs. -/
def runAuthed (env : Option String) (req : Req) (db : DB)
    (handler : DB → DB × HResp) : DB × HResp :=
  match requireToken env req.authorization with
  | some e => (db, errResp e)
  | none => handler db

/-- dispatch embeds the routing table of the server: every route except
the health check and the stats summary runs behind requireToken, and the
usage ingestion route additionally runs behind the per-ip fixed-window
limiter, which increments the counter of the source ip on every request
and rejects with the 429 limiter message once the window is exhausted,
before the auth middleware runs. -/
def dispatch (env : Option String) (now : Int) (r : ApiRoute) (req : Req)
    (rs : RateState) (db : DB) : RateState × DB × HResp :=
  match r with
  | .health => (rs, getHealth db)
  | .apiStats => (rs, getStats db now)
  | .apiApps => (rs, runAuthed env req db (fun d => postApps d now req.body))
  | .apiDeployments =>
      (rs, runAuthed env req db (fun d => postDeployments d now req.body))
  | .apiUsage =>
      let c := rateGet rs req.ip
      let rs2 := rateSet rs req.ip (c + 1)
      if usageLimiterMax < c + 1 then
        (rs2, db, .rateLimited "rate_limit_exceeded" 60)
      else
        (rs2, runAuthed env req db (fun d => postUsage d now req.body))
  | .dashOverview => (rs, runAuthed env req db (fun d => getOverview d now))
  | .dashAnalytics => (rs, runAuthed env req db (fun d => getAnalytics d now))
  | .dashDeployments => (rs, runAuthed env req db (fun d => getDeployHist d))
  | .dashRoutes => (rs, runAuthed env req db (fun d => getRoutes d now))
  | .dashErrors => (rs, runAuthed env req db (fun d => getErrors d now))
  | .adminPrune => (rs, runAuthed env req db (fun d => postPrune d now req.body))

/-- sampleApp is a concrete registered application used as a fixture. -/
def sampleApp : AppRow :=
  { id := 1, slug := .str "blog", name := .str "Blog", repo_url := .jsNull
    public_url := .jsNull, created_at := 0 }

/-- sampleDeployA is a concrete deployment of the fixture app. -/
def sampleDeployA : DeploymentRow :=
  { id := 1, app_id := 1, environment := .str "prod", version := .str "v1"
    note := .jsNull, deployed_by := .jsNull, deployed_at := 60 }

/-- sampleDeployB is a second deployment of the fixture app, thirty
seconds after the first, inside the same minute. -/
def sampleDeployB : DeploymentRow :=
  { id := 2, app_id := 1, environment := .str "prod", version := .str "v2"
    note := .jsNull, deployed_by := .jsNull, deployed_at := 90 }

/-- sampleDB is a concrete database fixture: one app, two deployments in
the same minute, no usage events. -/
def sampleDB : DB :=
  { apps := [sampleApp], deployments := [sampleDeployA, sampleDeployB]
    usage_events := [], nextAppId := 2, nextDeployId := 3, nextUsageId := 1 }

/-!
Helper lemmas shared by the claim theorems.
-/

/-- sumCountsOfKeys is the partition law behind the daily rollup: over a
duplicate-free key list covering every element, the per-key filter counts
sum to the length of the list. -/
theorem sumCountsOfKeys {α κ : Type} [DecidableEq κ] (k : α → κ) :
    ∀ (keys : List κ) (l : List α), keys.Nodup → (∀ x ∈ l, k x ∈ keys) →
      (keys.map (fun d => (l.filter (fun x => k x == d)).length)).sum = l.length := by
  intro keys
  induction keys with
  | nil =>
      intro l _ hcov
      have hl : l = [] := by
        rw [List.eq_nil_iff_forall_not_mem]
        intro a ha
        exact absurd (hcov a ha) (List.not_mem_nil _)
      simp [hl]
  | cons d rest ih =>
      intro l hnd hcov
      have hndr : rest.Nodup := hnd.of_cons
      have hdr : d ∉ rest := by
        intro hmem
        exact (List.nodup_cons.mp hnd).1 hmem
      set l' := l.filter (fun x => !(k x == d)) with hl'
      have hmapeq :
          rest.map (fun e => (l.filter (fun x => k x == e)).length) =
          rest.map (fun e => (l'.filter (fun x => k x == e)).length) := by
        apply List.map_congr_left
        intro e he
        have : l'.filter (fun x => k x == e) = l.filter (fun x => k x == e) := by
          rw [hl', List.filter_filter]
          apply List.filter_congr
          intro x _
          by_cases hx : k x = e
          · have hed : e ≠ d := fun h => hdr (h ▸ he)
            simp [hx, hed]
          · simp [hx]
        rw [this]
      have hcov' : ∀ x ∈ l', k x ∈ rest := by
        intro x hx
        have hx2 := List.mem_filter.mp hx
        have hne : ¬ (k x == d) = true := by
          simpa using hx2.2
        have := hcov x hx2.1
        rcases List.mem_cons.mp this with h | h
        · exact absurd (by simpa using h) hne
        · exact h
      have hsplit : l.length = (l.filter (fun x => k x == d)).length + l'.length := by
        rw [hl']
        have h1 := List.length_eq_countP_add_countP (fun x => k x == d) l
        rw [List.countP_eq_length_filter, List.countP_eq_length_filter] at h1
        have h2 : l.filter (fun a => decide ¬(k a == d) = true) =
            l.filter (fun x => !(k x == d)) := by
          apply List.filter_congr
          intro x _
          by_cases hx : k x = d <;> simp [hx]
        rw [h2] at h1
        exact h1
      calc ((d :: rest).map (fun e => (l.filter (fun x => k x == e)).length)).sum
          = (l.filter (fun x => k x == d)).length +
            (rest.map (fun e => (l.filter (fun x => k x == e)).length)).sum := by
            simp
        _ = (l.filter (fun x => k x == d)).length +
            (rest.map (fun e => (l'.filter (fun x => k x == e)).length)).sum := by
            rw [hmapeq]
        _ = (l.filter (fun x => k x == d)).length + l'.length := by
            rw [ih l' hndr hcov']
        _ = l.length := hsplit.symm

/-- foldPickLatestAcc states the invariant of the distinct-on fold: from a
seed row the fold yields a row of the seed-or-list whose timestamp bounds
the seed and every list element. -/
theorem foldPickLatestAcc :
    ∀ (l : List DeploymentRow) (a : DeploymentRow),
      ∃ m, l.foldl pickLatest (some a) = some m ∧ (m = a ∨ m ∈ l) ∧
        a.deployed_at ≤ m.deployed_at ∧ ∀ d ∈ l, d.deployed_at ≤ m.deployed_at := by
  intro l
  induction l with
  | nil =>
      intro a
      exact ⟨a, rfl, Or.inl rfl, le_refl _, by intro d hd; exact absurd hd (List.not_mem_nil _)⟩
  | cons x xs ih =>
      intro a
      by_cases hlt : a.deployed_at < x.deployed_at
      · have hstep : pickLatest (some a) x = some x := by
          simp [pickLatest, hlt]
        obtain ⟨m, hm, hmem, hle, hall⟩ := ih x
        refine ⟨m, ?_, ?_, ?_, ?_⟩
        · simpa [hstep] using hm
        · rcases hmem with h | h
          · exact Or.inr (h ▸ List.mem_cons_self x xs)
          · exact Or.inr (List.mem_cons_of_mem x h)
        · exact le_trans (le_of_lt hlt) hle
        · intro d hd
          rcases List.mem_cons.mp hd with h | h
          · exact h ▸ hle
          · exact hall d h
      · have hstep : pickLatest (some a) x = some a := by
          simp [pickLatest, hlt]
        obtain ⟨m, hm, hmem, hle, hall⟩ := ih a
        refine ⟨m, ?_, ?_, hle, ?_⟩
        · simpa [hstep] using hm
        · rcases hmem with h | h
          · exact Or.inl h
          · exact Or.inr (List.mem_cons_of_mem x h)
        · intro d hd
          rcases List.mem_cons.mp hd with h | h
          · exact h ▸ le_trans (le_of_not_lt hlt) hle
          · exact hall d h

/-- lastDeployMax states the distinct-on correctness: when an app has at
least one deployment, lastDeploy returns one of its deployments and that
row has maximal deployed_at among them. -/
theorem lastDeployMax (ds : List DeploymentRow) (appId : Nat)
    (d0 : DeploymentRow) (h0 : d0 ∈ ds) (happ : d0.app_id = appId) :
    ∃ m, lastDeploy ds appId = some m ∧ m ∈ ds ∧ m.app_id = appId ∧
      ∀ d ∈ ds, d.app_id = appId → d.deployed_at ≤ m.deployed_at := by
  have h0f : d0 ∈ ds.filter (fun d => d.app_id == appId) := by
    rw [List.mem_filter]
    exact ⟨h0, by simp [happ]⟩
  obtain ⟨x, xs, hx⟩ : ∃ x xs, ds.filter (fun d => d.app_id == appId) = x :: xs := by
    cases hfe : ds.filter (fun d => d.app_id == appId) with
    | nil => rw [hfe] at h0f; exact absurd h0f (List.not_mem_nil _)
    | cons x xs => exact ⟨x, xs, rfl⟩
  obtain ⟨m, hm, hmem, _, hall⟩ := foldPickLatestAcc xs x
  have hmf : m ∈ ds.filter (fun d => d.app_id == appId) := by
    rw [hx]
    rcases hmem with h | h
    · exact h ▸ List.mem_cons_self x xs
    · exact List.mem_cons_of_mem x h
  have hmfp := List.mem_filter.mp hmf
  refine ⟨m, ?_, hmfp.1, by simpa using hmfp.2, ?_⟩
  · unfold lastDeploy
    rw [hx]
    simpa using hm
  · intro d hd hdapp
    have hdf : d ∈ ds.filter (fun e => e.app_id == appId) := by
      rw [List.mem_filter]
      exact ⟨hd, by simp [hdapp]⟩
    rw [hx] at hdf
    rcases List.mem_cons.mp hdf with h | h
    · subst h
      obtain ⟨m2, hm2, _, hle2, _⟩ := foldPickLatestAcc xs d
      rw [hm2] at hm
      cases hm
      exact hle2
    · exact hall d h

/-- findPairMapMem is the lookup law of a grouped rollup: searching the
key-tagged group list for a present key finds that key with its value. -/
theorem findPairMapMem (g : Nat → Nat) :
    ∀ (ids : List Nat) (i : Nat), i ∈ ids →
      (ids.map (fun j => (j, g j))).find? (fun p => p.1 == i) = some (i, g i) := by
  intro ids
  induction ids with
  | nil =>
      intro i hi
      exact absurd hi (List.not_mem_nil _)
  | cons j rest ih =>
      intro i hi
      by_cases hj : j = i
      · subst hj
        rw [List.map_cons, List.find?_cons_of_pos _ (by simp)]
      · have hi' : i ∈ rest := by
          rcases List.mem_cons.mp hi with h | h
          · exact absurd h.symm hj
          · exact h
        rw [List.map_cons, List.find?_cons_of_neg _ (by simp [hj])]
        exact ih i hi'

/-- findPairMapNone is the complementary law: an absent key finds no group. -/
theorem findPairMapNone (g : Nat → Nat) (ids : List Nat) (i : Nat)
    (hi : i ∉ ids) :
    (ids.map (fun j => (j, g j))).find? (fun p => p.1 == i) = none := by
  rw [List.find?_eq_none]
  intro p hp
  obtain ⟨j, hj, hpj⟩ := List.mem_map.mp hp
  intro hpi
  apply hi
  have : p.1 = j := by rw [← hpj]
  have hji : j = i := by
    have := of_decide_eq_true (by simpa [this] using hpi)
    exact this
  exact hji ▸ hj

/-- hitsForGroups collapses the usage_24h group-then-lookup path of the
overview query to the direct windowed count of one app. -/
theorem hitsForGroups (evs : List UsageEventRow) (now : Int) (appId : Nat) :
    hitsFor (usage24hGroups evs now) appId =
      ((evs.filter (fun e => inWindow24h now e.ts)).filter
        (fun e => e.app_id == appId)).length := by
  unfold hitsFor usage24hGroups
  set window := evs.filter (fun e => inWindow24h now e.ts) with hw
  set ids := (window.map (fun e => e.app_id)).dedup with hids
  by_cases hmem : appId ∈ ids
  · rw [findPairMapMem (fun i => (window.filter (fun e => e.app_id == i)).length) ids appId hmem]
  · rw [findPairMapNone (fun i => (window.filter (fun e => e.app_id == i)).length) ids appId hmem]
    have hempty : window.filter (fun e => e.app_id == appId) = [] := by
      rw [List.filter_eq_nil_iff]
      intro e he
      intro hbeq
      apply hmem
      rw [hids, List.mem_dedup]
      have : e.app_id = appId := by simpa using hbeq
      exact this ▸ List.mem_map_of_mem (fun e => e.app_id) he
    rw [hempty]
    rfl

/-- rateGetSetSame states the limiter counter update: after writing the
count of one ip, reading that ip yields the written count. -/
theorem rateGetSetSame (rs : RateState) (ip : String) (n : Nat) :
    rateGet (rateSet rs ip n) ip = n := by
  induction rs with
  | nil =>
      have h1 : rateSet [] ip n = [(ip, n)] := rfl
      rw [h1]
      unfold rateGet
      rw [List.find?_cons_of_pos _ (by simp)]
  | cons p rest ih =>
      by_cases hp : p.1 = ip
      · have hset : rateSet (p :: rest) ip n
            = (p :: rest).map (fun q => if q.1 == ip then (q.1, n) else q) := by
          simp only [rateSet]
          rw [List.find?_cons_of_pos _ (by simp [hp])]
        rw [hset, List.map_cons,
          show (if (p.1 == ip) = true then ((p.1, n) : String × Nat) else p)
              = (p.1, n) by simp [hp]]
        unfold rateGet
        rw [List.find?_cons_of_pos _ (by simp [hp])]
      · cases hf : rest.find? (fun q => q.1 == ip) with
        | some q =>
            have hset : rateSet (p :: rest) ip n
                = (p :: rest).map (fun q => if q.1 == ip then (q.1, n) else q) := by
              simp only [rateSet]
              rw [List.find?_cons_of_neg _ (by simp [hp]), hf]
            have hsetr : rateSet rest ip n
                = rest.map (fun q => if q.1 == ip then (q.1, n) else q) := by
              simp only [rateSet, hf]
            rw [hset, List.map_cons,
              show (if (p.1 == ip) = true then ((p.1, n) : String × Nat) else p)
                  = p by simp [hp]]
            have ih2 := ih
            unfold rateGet at ih2 ⊢
            rw [List.find?_cons_of_neg _ (by simp [hp])]
            rw [hsetr] at ih2
            exact ih2
        | none =>
            have hset : rateSet (p :: rest) ip n = (p :: rest) ++ [(ip, n)] := by
              simp only [rateSet]
              rw [List.find?_cons_of_neg _ (by simp [hp]), hf]
            have hsetr : rateSet rest ip n = rest ++ [(ip, n)] := by
              simp only [rateSet, hf]
            rw [hset, List.cons_append]
            have ih2 := ih
            unfold rateGet at ih2 ⊢
            rw [List.find?_cons_of_neg _ (by simp [hp])]
            rw [hsetr] at ih2
            exact ih2

/-- requireTokenNoHeader states that the auth middleware always rejects a
request with no authorization header: with no configured token it fails
closed with the server error, otherwise the absent token cannot equal the
configured one. -/
theorem requireTokenNoHeader (env : Option String) :
    ∃ e, requireToken env none = some e := by
  cases env with
  | none => exact ⟨.server_not_configured, rfl⟩
  | some s =>
      by_cases hs : s = ""
      · subst hs
        exact ⟨.server_not_configured, rfl⟩
      · refine ⟨.unauthorized, ?_⟩
        have h1 : tokenMissing (some s) = false := by simp [tokenMissing, hs]
        have h2 : (Option.map stripBearer none : Option String) ≠ some s := by simp
        simp [requireToken, h1, h2]

/-- errRespIsError states that both auth error responses are rejections. -/
theorem errRespIsError (e : AuthErr) : (errResp e).isErrorResp = true := by
  cases e <;> rfl

/-- filterMapUpdate is the conflict-branch law of the upsert: with
duplicate-free slugs and a present slug, replacing the matching row and
filtering on the slug yields exactly the replacement. -/
theorem filterMapUpdate (s : JSVal) (a2 : AppRow) (h2 : a2.slug = s) :
    ∀ (l : List AppRow), (l.map (fun a => a.slug)).Nodup →
      (∃ a ∈ l, a.slug = s) →
      (l.map (fun b => if b.slug == s then a2 else b)).filter
        (fun b => b.slug == s) = [a2] := by
  intro l
  induction l with
  | nil =>
      intro _ hex
      obtain ⟨a, ha, _⟩ := hex
      exact absurd ha (List.not_mem_nil _)
  | cons b rest ih =>
      intro hnd hex
      have hnds : rest.map (fun a => a.slug) |>.Nodup := (List.nodup_cons.mp hnd).2
      by_cases hb : b.slug = s
      · have hrest : ∀ x ∈ rest, ¬ x.slug = s := by
          intro x hx hxs
          exact (List.nodup_cons.mp hnd).1
            (by simpa [hb, hxs] using List.mem_map_of_mem (fun a => a.slug) hx)
        have hhead : (if (b.slug == s) = true then a2 else b) = a2 := by
          simp [hb]
        rw [List.map_cons, hhead]
        rw [List.filter_cons_of_pos (by simp [h2])]
        have htail : (rest.map (fun c => if c.slug == s then a2 else c)).filter
            (fun c => c.slug == s) = [] := by
          rw [List.filter_eq_nil_iff]
          intro y hy
          obtain ⟨x, hx, hxy⟩ := List.mem_map.mp hy
          have hxns : ¬ x.slug = s := hrest x hx
          have : y = x := by
            rw [← hxy]
            simp [hxns]
          rw [this]
          simp [hxns]
        rw [htail]
      · have hhead : (if (b.slug == s) = true then a2 else b) = b := by
          simp [hb]
        rw [List.map_cons, hhead]
        rw [List.filter_cons_of_neg (by simp [hb])]
        apply ih hnds
        obtain ⟨a, ha, has⟩ := hex
        rcases List.mem_cons.mp ha with h | h
        · exact absurd (h ▸ has) hb
        · exact ⟨a, h, has⟩

/-- upsertAppFilter states the upsert identity law: starting from
duplicate-free slugs, after an upsert exactly one row carries the slug and
it is the returned row. -/
theorem upsertAppFilter (db : DB) (now : Int) (s n r p : JSVal)
    (hnd : (db.apps.map (fun a => a.slug)).Nodup) :
    (upsertApp db now s n r p).1.apps.filter (fun a => a.slug == s)
      = [(upsertApp db now s n r p).2] := by
  unfold upsertApp
  cases hfind : db.apps.find? (fun a => a.slug == s) with
  | some a =>
      have has : a.slug = s := by
        have := List.find?_some hfind
        simpa using this
      simp only
      exact filterMapUpdate s
        ({ a with name := n, repo_url := r, public_url := p }) has db.apps hnd
        ⟨a, List.mem_of_find?_eq_some hfind, has⟩
  | none =>
      have hnone : ∀ x ∈ db.apps, ¬ (x.slug == s) = true :=
        List.find?_eq_none.mp hfind
      simp only
      rw [List.filter_append]
      rw [List.filter_eq_nil_iff.mpr hnone]
      rw [List.filter_cons_of_pos (by simp)]
      rfl

/-- upsertAppRow states the returned row of an upsert: its slug is the
requested slug and its mutable attributes are the request values. -/
theorem upsertAppRow (db : DB) (now : Int) (s n r p : JSVal) :
    (upsertApp db now s n r p).2.slug = s ∧
    (upsertApp db now s n r p).2.name = n ∧
    (upsertApp db now s n r p).2.repo_url = r ∧
    (upsertApp db now s n r p).2.public_url = p := by
  unfold upsertApp
  cases hfind : db.apps.find? (fun a => a.slug == s) with
  | some a =>
      have has : a.slug = s := by
        have := List.find?_some hfind
        simpa using this
      exact ⟨has, rfl, rfl, rfl⟩
  | none => exact ⟨rfl, rfl, rfl, rfl⟩

/-- upsertAppNodup states that an upsert preserves slug uniqueness. -/
theorem upsertAppNodup (db : DB) (now : Int) (s n r p : JSVal)
    (hnd : (db.apps.map (fun a => a.slug)).Nodup) :
    ((upsertApp db now s n r p).1.apps.map (fun a => a.slug)).Nodup := by
  unfold upsertApp
  cases hfind : db.apps.find? (fun a => a.slug == s) with
  | some a =>
      have has : a.slug = s := by
        have := List.find?_some hfind
        simpa using this
      simp only
      have hmap : (db.apps.map (fun b => if b.slug == s then
          ({ a with name := n, repo_url := r, public_url := p } : AppRow) else b)).map
            (fun b => b.slug) = db.apps.map (fun b => b.slug) := by
        rw [List.map_map]
        apply List.map_congr_left
        intro b _
        by_cases hbs : b.slug = s
        · simp [hbs, has]
        · simp [hbs]
      rw [hmap]
      exact hnd
  | none =>
      have hnone : ∀ x ∈ db.apps, ¬ (x.slug == s) = true :=
        List.find?_eq_none.mp hfind
      simp only
      rw [List.map_append]
      rw [List.nodup_append]
      refine ⟨hnd, List.nodup_singleton _, ?_⟩
      intro y hy
      obtain ⟨x, hx, hxy⟩ := List.mem_map.mp hy
      intro hmem
      have hys : y = s := by
        have := List.mem_singleton.mp hmem
        simpa using this
      exact hnone x hx (by simp [hxy, hys])

/-- upsertAppMem states that the returned row of an upsert is a row of the
resulting table. -/
theorem upsertAppMem (db : DB) (now : Int) (s n r p : JSVal) :
    (upsertApp db now s n r p).2 ∈ (upsertApp db now s n r p).1.apps := by
  unfold upsertApp
  cases hfind : db.apps.find? (fun a => a.slug == s) with
  | some a =>
      have has : a.slug = s := by
        simpa using List.find?_some hfind
      simp only
      have := List.mem_of_find?_eq_some hfind
      have hmem := List.mem_map_of_mem
        (fun b => if b.slug == s then
          ({ a with name := n, repo_url := r, public_url := p } : AppRow) else b) this
      simpa [has] using hmem
  | none =>
      simp only
      exact List.mem_append_right _ (List.mem_singleton.mpr rfl)

/-!
Claim theorems.
-/

/-- C2: an authenticated deployment or usage ingestion whose app_slug is
present but matches no registered application answers 404 with the
app_not_found error code and leaves the database state unchanged. -/
theorem claimC2UnknownSlugRejected (db : DB) (now : Int) (body : Body)
    (ht : (getField body "app_slug").truthy = true)
    (hnone : findAppBySlug db (getField body "app_slug") = none) :
    postDeployments db now body = (db, .errR 404 "app_not_found") ∧
    postUsage db now body = (db, .errR 404 "app_not_found") := by
  constructor
  · simp [postDeployments, ht, hnone]
  · simp [postUsage, ht, hnone]

/-- C2 witness: recording against the unknown slug nope on the fixture
database is rejected with 404 and writes nothing. -/
theorem claimC2UnknownSlugRejectedWitness :
    postDeployments sampleDB 500 [("app_slug", .str "nope")]
      = (sampleDB, .errR 404 "app_not_found") ∧
    postUsage sampleDB 500 [("app_slug", .str "nope")]
      = (sampleDB, .errR 404 "app_not_found") :=
  claimC2UnknownSlugRejected sampleDB 500 [("app_slug", .str "nope")]
    (by decide) (by decide)

/-- C4: the per-day totals of the analytics daily rollup over the trailing
7 days sum to the direct count of usage events with timestamp at least
now minus 7 days; the day bucketing partitions the window. -/
theorem claimC4DailyPartition (db : DB) (now : Int) :
    ((analyticsDaily db.usage_events now).map Prod.snd).sum =
      (db.usage_events.filter (fun e => inWindow7d now e.ts)).length := by
  simp only [analyticsDaily]
  set window := db.usage_events.filter (fun e => inWindow7d now e.ts) with hw
  have hperm := ((List.perm_insertionSort dateLe
    (((window.map (fun e => dayBucket e.ts)).dedup).map
      (fun d => (d, (window.filter (fun e => dayBucket e.ts == d)).length))))).map Prod.snd
  rw [hperm.sum_eq, List.map_map]
  have hsum := sumCountsOfKeys (fun e => dayBucket e.ts)
    ((window.map (fun e => dayBucket e.ts)).dedup) window
    (List.nodup_dedup _)
    (fun x hx => List.mem_dedup.mpr (List.mem_map_of_mem _ hx))
  simpa [Function.comp] using hsum

/-- C7: every registered application has an overview row carrying its slug
whose hits_24h field equals the count of its usage events in the trailing
24 hours, and that field is the number 0 when there is no such event. -/
theorem claimC7HitsCoalesced (db : DB) (now : Int) (a : AppRow)
    (ha : a ∈ db.apps) :
    ∃ row ∈ overviewRows db now, row.slug = a.slug ∧
      row.hits_24h = (db.usage_events.filter
        (fun e => e.app_id == a.id && inWindow24h now e.ts)).length ∧
      (db.usage_events.filter
        (fun e => e.app_id == a.id && inWindow24h now e.ts) = [] →
          row.hits_24h = 0) := by
  refine ⟨buildOverviewRow db.deployments (usage24hGroups db.usage_events now) a,
    ?_, rfl, ?_, ?_⟩
  · unfold overviewRows
    exact List.mem_map_of_mem _
      (((List.perm_insertionSort appNameLe db.apps).mem_iff).mpr ha)
  · have h := hitsForGroups db.usage_events now a.id
    rw [List.filter_filter] at h
    exact h
  · intro hnil
    have h := hitsForGroups db.usage_events now a.id
    rw [List.filter_filter, hnil] at h
    simpa [buildOverviewRow] using h

/-- C7 witness: the fixture app has an overview row with hits_24h equal to
its windowed event count, which is 0 as it has no events. -/
theorem claimC7HitsCoalescedWitness :
    ∃ row ∈ overviewRows sampleDB 500, row.slug = sampleApp.slug ∧
      row.hits_24h = (sampleDB.usage_events.filter
        (fun e => e.app_id == sampleApp.id && inWindow24h 500 e.ts)).length ∧
      (sampleDB.usage_events.filter
        (fun e => e.app_id == sampleApp.id && inWindow24h 500 e.ts) = [] →
          row.hits_24h = 0) :=
  claimC7HitsCoalesced sampleDB 500 sampleApp (by decide)

/-- C3: every application with at least one deployment has an overview row
carrying its slug whose latest-deployment fields deployed_at, environment,
version and note are exactly those of one of its deployments with maximal
deployed_at; close timestamps are compared exactly, so deployments within
the same minute are ordered correctly. -/
theorem claimC3LatestDeployment (db : DB) (now : Int) (a : AppRow)
    (ha : a ∈ db.apps) (d0 : DeploymentRow) (hd0 : d0 ∈ db.deployments)
    (happ : d0.app_id = a.id) :
    ∃ row ∈ overviewRows db now, row.slug = a.slug ∧
      ∃ m ∈ db.deployments, m.app_id = a.id ∧
        (∀ d ∈ db.deployments, d.app_id = a.id →
          d.deployed_at ≤ m.deployed_at) ∧
        row.deployed_at = some m.deployed_at ∧
        row.environment = some m.environment ∧
        row.version = some m.version ∧
        row.note = some m.note := by
  obtain ⟨m, hm, hmem, hmapp, hmax⟩ := lastDeployMax db.deployments a.id d0 hd0 happ
  refine ⟨buildOverviewRow db.deployments (usage24hGroups db.usage_events now) a,
    ?_, rfl, m, hmem, hmapp, hmax, ?_, ?_, ?_, ?_⟩
  · unfold overviewRows
    exact List.mem_map_of_mem _
      (((List.perm_insertionSort appNameLe db.apps).mem_iff).mpr ha)
  · simp [buildOverviewRow, hm]
  · simp [buildOverviewRow, hm]
  · simp [buildOverviewRow, hm]
  · simp [buildOverviewRow, hm]

/-- C3 witness: the fixture app has two deployments thirty seconds apart
in the same minute, and its overview row carries the fields of the later
one. -/
theorem claimC3LatestDeploymentWitness :
    ∃ row ∈ overviewRows sampleDB 500, row.slug = sampleApp.slug ∧
      ∃ m ∈ sampleDB.deployments, m.app_id = sampleApp.id ∧
        (∀ d ∈ sampleDB.deployments, d.app_id = sampleApp.id →
          d.deployed_at ≤ m.deployed_at) ∧
        row.deployed_at = some m.deployed_at ∧
        row.environment = some m.environment ∧
        row.version = some m.version ∧
        row.note = some m.note :=
  claimC3LatestDeployment sampleDB 500 sampleApp (by decide)
    sampleDeployA (by decide) (by decide)

/-- C5: pruning with a numeric days parameter deletes exactly the usage
events older than now minus that many days and reports the deleted count;
an omitted parameter defaults to 90 days; with days 0 exactly the events
strictly before now are deleted; and an immediate re-run with no new
events reports a pruned count of 0 and changes nothing further. -/
theorem claimC5PruneRetention (db : DB) (now : Int) (n : Int) :
    postPrune db now [("days", JSVal.num n)] =
      ({ db with usage_events :=
          db.usage_events.filter (fun e => !(e.ts < now - 86400 * n)) },
       .okPrune ((db.usage_events.filter
          (fun e => e.ts < now - 86400 * n)).length) (.num n)) ∧
    postPrune db now [] =
      ({ db with usage_events :=
          db.usage_events.filter (fun e => !(e.ts < now - 86400 * 90)) },
       .okPrune ((db.usage_events.filter
          (fun e => e.ts < now - 86400 * 90)).length) (.num 90)) ∧
    postPrune db now [("days", JSVal.num 0)] =
      ({ db with usage_events :=
          db.usage_events.filter (fun e => !(e.ts < now)) },
       .okPrune ((db.usage_events.filter
          (fun e => e.ts < now)).length) (.num 0)) ∧
    postPrune (postPrune db now [("days", JSVal.num 0)]).1 now
        [("days", JSVal.num 0)]
      = ((postPrune db now [("days", JSVal.num 0)]).1, .okPrune 0 (.num 0)) := by
  have h1 : postPrune db now [("days", JSVal.num n)] =
      ({ db with usage_events :=
          db.usage_events.filter (fun e => !(e.ts < now - 86400 * n)) },
       .okPrune ((db.usage_events.filter
          (fun e => e.ts < now - 86400 * n)).length) (.num n)) := by
    simp [postPrune, getField, withDefault, pruneCore]
  have h2 : postPrune db now [] =
      ({ db with usage_events :=
          db.usage_events.filter (fun e => !(e.ts < now - 86400 * 90)) },
       .okPrune ((db.usage_events.filter
          (fun e => e.ts < now - 86400 * 90)).length) (.num 90)) := by
    simp [postPrune, getField, withDefault, pruneCore]
  have h3 : postPrune db now [("days", JSVal.num 0)] =
      ({ db with usage_events :=
          db.usage_events.filter (fun e => !(e.ts < now)) },
       .okPrune ((db.usage_events.filter
          (fun e => e.ts < now)).length) (.num 0)) := by
    simp [postPrune, getField, withDefault, pruneCore]
  refine ⟨h1, h2, h3, ?_⟩
  rw [h3]
  simp [postPrune, getField, withDefault, pruneCore, List.filter_filter]

/-- C6: upserting an application twice with the same slug and two names
leaves exactly one row carrying the slug, and its name is the second name;
the slug is the stable identity and the other attributes are mutable. -/
theorem claimC6UpsertLatestWins (db : DB) (t1 t2 : Int) (s n1 n2 : JSVal)
    (hnd : (db.apps.map (fun a => a.slug)).Nodup)
    (hs : s.truthy = true) (hn1 : n1.truthy = true) (hn2 : n2.truthy = true) :
    (((postApps (postApps db t1 [("slug", s), ("name", n1)]).1 t2
        [("slug", s), ("name", n2)]).1.apps.filter
          (fun a => a.slug == s)).length = 1) ∧
    (∀ a ∈ (postApps (postApps db t1 [("slug", s), ("name", n1)]).1 t2
        [("slug", s), ("name", n2)]).1.apps, a.slug = s → a.name = n2) := by
  have hga : ∀ m : JSVal, getField [("slug", s), ("name", m)] "slug" = s := by
    intro m
    unfold getField
    rw [List.find?_cons_of_pos _ (by simp)]
  have hgn : ∀ m : JSVal, getField [("slug", s), ("name", m)] "name" = m := by
    intro m
    unfold getField
    rw [List.find?_cons_of_neg _ (by simp), List.find?_cons_of_pos _ (by simp)]
  have hgr : ∀ m : JSVal,
      getField [("slug", s), ("name", m)] "repo_url" = .jsUndefined := by
    intro m
    unfold getField
    rw [List.find?_cons_of_neg _ (by simp), List.find?_cons_of_neg _ (by simp)]
    rfl
  have hgp : ∀ m : JSVal,
      getField [("slug", s), ("name", m)] "public_url" = .jsUndefined := by
    intro m
    unfold getField
    rw [List.find?_cons_of_neg _ (by simp), List.find?_cons_of_neg _ (by simp)]
    rfl
  have hpost : ∀ (d : DB) (t : Int) (m : JSVal), m.truthy = true →
      (postApps d t [("slug", s), ("name", m)]).1
        = (upsertApp d t s m JSVal.jsNull JSVal.jsNull).1 := by
    intro d t m hm
    simp [postApps, hga, hgn, hgr, hgp, hs, hm,
      show orNull .jsUndefined = .jsNull from rfl]
  have hnd1 : ((postApps db t1 [("slug", s), ("name", n1)]).1.apps.map
      (fun a => a.slug)).Nodup := by
    rw [hpost db t1 n1 hn1]
    exact upsertAppNodup db t1 s n1 .jsNull .jsNull hnd
  rw [hpost _ t2 n2 hn2]
  have hfilter := upsertAppFilter (postApps db t1 [("slug", s), ("name", n1)]).1
    t2 s n2 .jsNull .jsNull hnd1
  obtain ⟨hslug, hname, _, _⟩ :=
    upsertAppRow (postApps db t1 [("slug", s), ("name", n1)]).1
      t2 s n2 .jsNull .jsNull
  constructor
  · rw [hfilter]
    rfl
  · intro a hamem has
    have hmemf : a ∈ ((upsertApp (postApps db t1 [("slug", s), ("name", n1)]).1
        t2 s n2 .jsNull .jsNull).1.apps.filter (fun b => b.slug == s)) := by
      rw [List.mem_filter]
      exact ⟨hamem, by simp [has]⟩
    rw [hfilter] at hmemf
    have ha2 : a = (upsertApp (postApps db t1 [("slug", s), ("name", n1)]).1
        t2 s n2 .jsNull .jsNull).2 := List.mem_singleton.mp hmemf
    rw [ha2, hname]

/-- C6 witness: upserting the slug blog with name A then name B on the
empty database leaves one row with that slug named B. -/
theorem claimC6UpsertLatestWinsWitness :
    (((postApps (postApps emptyDB 0
        [("slug", .str "blog"), ("name", .str "A")]).1 1
        [("slug", .str "blog"), ("name", .str "B")]).1.apps.filter
          (fun a => a.slug == .str "blog")).length = 1) ∧
    (∀ a ∈ (postApps (postApps emptyDB 0
        [("slug", .str "blog"), ("name", .str "A")]).1 1
        [("slug", .str "blog"), ("name", .str "B")]).1.apps,
      a.slug = .str "blog" → a.name = .str "B") :=
  claimC6UpsertLatestWins emptyDB 0 1 (.str "blog") (.str "A") (.str "B")
    (by decide) (by decide) (by decide) (by decide)

/-- C1 counterexample: the usage ingestion endpoint is token protected and
the server has no token configured, yet the 101st request of the window
from one ip is answered with the 429 limiter message, not with the 500
server_not_configured response the claim requires for every request to a
protected endpoint. -/
theorem claimC1Counterexample :
    routeHasRequireToken .apiUsage = true ∧
    tokenMissing none = true ∧
    (dispatch none 0 .apiUsage
        { authorization := none, body := [], ip := "203.0.113.9" }
        [("203.0.113.9", 100)] emptyDB).2.2
      = .rateLimited "rate_limit_exceeded" 60 ∧
    (dispatch none 0 .apiUsage
        { authorization := none, body := [], ip := "203.0.113.9" }
        [("203.0.113.9", 100)] emptyDB).2.2
      ≠ .errR 500 "server_not_configured" := by
  decide

/-- C1 amended: for every request to a token-protected endpoint that the
usage rate limiter does not reject (any protected endpoint, with the usage
ingestion route inside its per-ip window): with no token configured the
response is 500 server_not_configured regardless of the header; otherwise
a presented token differing from the configured one, including an absent
header, yields 401 unauthorized; in both cases the database is unchanged,
and the auth middleware short-circuits every handler. -/
theorem claimC1AuthAmended (env : Option String) (now : Int) (r : ApiRoute)
    (req : Req) (rs : RateState) (db : DB)
    (hprot : routeHasRequireToken r = true)
    (hwin : r = .apiUsage → rateGet rs req.ip < usageLimiterMax) :
    (tokenMissing env = true →
      (dispatch env now r req rs db).2 = (db, .errR 500 "server_not_configured")) ∧
    (tokenMissing env = false →
      req.authorization.map stripBearer ≠ env →
      (dispatch env now r req rs db).2 = (db, .errR 401 "unauthorized")) ∧
    (∀ (e : AuthErr) (hnd : DB → DB × HResp),
      requireToken env req.authorization = some e →
      runAuthed env req db hnd = (db, errResp e)) := by
  have hreq500 : tokenMissing env = true →
      requireToken env req.authorization = some .server_not_configured := by
    intro h
    simp [requireToken, h]
  have hreq401 : tokenMissing env = false →
      req.authorization.map stripBearer ≠ env →
      requireToken env req.authorization = some .unauthorized := by
    intro h hne
    simp [requireToken, h, hne]
  refine ⟨?_, ?_, ?_⟩
  · intro hmiss
    cases r
    all_goals first
      | exact absurd hprot (by decide)
      | (have hc : ¬ (usageLimiterMax < rateGet rs req.ip + 1) := by
           have := hwin rfl
           omega
         simp [dispatch, hc, runAuthed, hreq500 hmiss, errResp])
      | simp [dispatch, runAuthed, hreq500 hmiss, errResp]
  · intro hmiss hne
    cases r
    all_goals first
      | exact absurd hprot (by decide)
      | (have hc : ¬ (usageLimiterMax < rateGet rs req.ip + 1) := by
           have := hwin rfl
           omega
         simp [dispatch, hc, runAuthed, hreq401 hmiss hne, errResp])
      | simp [dispatch, runAuthed, hreq401 hmiss hne, errResp]
  · intro e hnd he
    simp [runAuthed, he]

/-- C1 witness: an overview request with no header on an unconfigured
server is answered 500 server_not_configured with the database unchanged. -/
theorem claimC1AuthAmendedWitness :
    (dispatch none 0 .dashOverview
        { authorization := none, body := [], ip := "203.0.113.9" }
        [] emptyDB).2 = (emptyDB, .errR 500 "server_not_configured") :=
  (claimC1AuthAmended none 0 .dashOverview
      { authorization := none, body := [], ip := "203.0.113.9" } [] emptyDB
      (by decide) (by intro h; simp at h)).1 rfl

/-- C8: bearer-token auth is enforced on every endpoint except the health
check and the stats summary: exactly those two routes lack the middleware,
they answer their success responses to requests with no authorization
header, and every other route rejects such a request with an error
response while leaving the database untouched. -/
theorem claimC8AuthSurface :
    (∀ r : ApiRoute,
      routeHasRequireToken r = false ↔ (r = .health ∨ r = .apiStats)) ∧
    (∀ (env : Option String) (now : Int) (req : Req) (rs : RateState) (db : DB),
      req.authorization = none →
      (∀ r : ApiRoute, routeHasRequireToken r = true →
        ((dispatch env now r req rs db).2.2.isErrorResp = true ∧
         (dispatch env now r req rs db).2.1 = db)) ∧
      (dispatch env now .health req rs db).2.2 = .okHealth ∧
      (dispatch env now .apiStats req rs db).2.2 =
        .okStats db.apps.length
          ((db.usage_events.filter (fun e => inWindow24h now e.ts)).length)
          ((db.usage_events.filter
              (fun e => inWindow24h now e.ts && statusGE400 e.status)).length)
          ((db.deployments.filter
              (fun d => inWindow7d now d.deployed_at)).length)) := by
  constructor
  · intro r
    cases r <;> simp [routeHasRequireToken]
  · intro env now req rs db hauth
    obtain ⟨e, he⟩ := requireTokenNoHeader env
    have he' : requireToken env req.authorization = some e := by
      rw [hauth]
      exact he
    refine ⟨?_, rfl, rfl⟩
    intro r hprot
    cases r
    all_goals first
      | exact absurd hprot (by decide)
      | (by_cases hc : usageLimiterMax < rateGet rs req.ip + 1
         · constructor <;> simp [dispatch, hc, HResp.isErrorResp]
         · constructor <;> simp [dispatch, hc, runAuthed, he', errRespIsError e])
      | (constructor <;> simp [dispatch, runAuthed, he', errRespIsError e])

/-- C8 witness: on the fixture database with a configured token, a
header-less overview request is rejected with the database untouched,
while header-less health and stats requests succeed. -/
theorem claimC8AuthSurfaceWitness :
    ((dispatch (some "tok") 0 .dashOverview
        { authorization := none, body := [], ip := "203.0.113.9" }
        [] sampleDB).2.2.isErrorResp = true ∧
     (dispatch (some "tok") 0 .dashOverview
        { authorization := none, body := [], ip := "203.0.113.9" }
        [] sampleDB).2.1 = sampleDB) ∧
    (dispatch (some "tok") 0 .health
        { authorization := none, body := [], ip := "203.0.113.9" }
        [] sampleDB).2.2 = .okHealth :=
  ⟨(claimC8AuthSurface.2 (some "tok") 0
      { authorization := none, body := [], ip := "203.0.113.9" }
      [] sampleDB rfl).1 .dashOverview rfl,
   (claimC8AuthSurface.2 (some "tok") 0
      { authorization := none, body := [], ip := "203.0.113.9" }
      [] sampleDB rfl).2.1⟩

/-- C10: on the usage ingestion route the per-ip fixed-window limiter runs
before token authentication: every request increments the counter of its
source ip whatever its authorization header, and once the window is
exhausted the response is the 429 limiter message with its retry hint for
any header and any token configuration, with the database unchanged. -/
theorem claimC10LimiterBeforeAuth (env : Option String) (now : Int)
    (req : Req) (rs : RateState) (db : DB) :
    rateGet (dispatch env now .apiUsage req rs db).1 req.ip
      = rateGet rs req.ip + 1 ∧
    (usageLimiterMax ≤ rateGet rs req.ip →
      (dispatch env now .apiUsage req rs db).2
        = (db, .rateLimited "rate_limit_exceeded" 60)) := by
  constructor
  · by_cases hc : usageLimiterMax < rateGet rs req.ip + 1
    · simp [dispatch, hc, rateGetSetSame]
    · simp [dispatch, hc, rateGetSetSame]
  · intro hle
    have hc : usageLimiterMax < rateGet rs req.ip + 1 := by omega
    simp [dispatch, hc]

/-- C10 witness: a request with no header from an ip with an exhausted
window is counted to 101 and answered with the limiter message even though
no token is configured. -/
theorem claimC10LimiterBeforeAuthWitness :
    rateGet (dispatch none 0 .apiUsage
        { authorization := none, body := [], ip := "203.0.113.9" }
        [("203.0.113.9", 100)] emptyDB).1 "203.0.113.9" = 101 ∧
    (dispatch none 0 .apiUsage
        { authorization := none, body := [], ip := "203.0.113.9" }
        [("203.0.113.9", 100)] emptyDB).2
      = (emptyDB, .rateLimited "rate_limit_exceeded" 60) :=
  ⟨(claimC10LimiterBeforeAuth none 0
      { authorization := none, body := [], ip := "203.0.113.9" }
      [("203.0.113.9", 100)] emptyDB).1.trans (by decide),
   (claimC10LimiterBeforeAuth none 0
      { authorization := none, body := [], ip := "203.0.113.9" }
      [("203.0.113.9", 100)] emptyDB).2 (by decide)⟩

/-- C9 counterexample: a usage event supplied with the status value 0 is
stored with a null status, not with the value the caller provided, because
the handler passes every optional field through a JavaScript or-else-null
default that collapses falsy values. -/
theorem claimC9Counterexample :
    (postUsage sampleDB 300 [("app_slug", .str "blog"), ("status", .num 0)]).2
      = .okUsage { id := 1, app_id := 1, ts := 300, kind := .str "request",
                   method := .jsNull, path := .jsNull, status := .jsNull,
                   ip := .jsNull, user_agent := .jsNull, error_message := .jsNull } ∧
    (postUsage sampleDB 300
        [("app_slug", .str "blog"), ("status", .num 0)]).1.usage_events
      = [{ id := 1, app_id := 1, ts := 300, kind := .str "request",
           method := .jsNull, path := .jsNull, status := .jsNull,
           ip := .jsNull, user_agent := .jsNull, error_message := .jsNull }] ∧
    (JSVal.jsNull ≠ JSVal.num 0) := by
  decide

/-- C9 amended: on every accepted ingestion request, each omitted optional
field is stored as null or as its stated default (environment prod, kind
request), and each supplied optional field is stored exactly as provided
when its value is truthy; a supplied falsy value, such as the number 0 or
an empty string, is stored as null by the or-else-null defaulting, while a
present environment or kind value is passed through unchanged. -/
theorem claimC9OptionalFieldsAmended (db : DB) (now : Int) (body : Body)
    (a : AppRow)
    (hs : (getField body "slug").truthy = true)
    (hn : (getField body "name").truthy = true)
    (hA : (getField body "app_slug").truthy = true)
    (hfind : findAppBySlug db (getField body "app_slug") = some a) :
    (∃ r, (postApps db now body).2 = .okApp r ∧
       r.name = getField body "name" ∧
       r.repo_url = orNull (getField body "repo_url") ∧
       r.public_url = orNull (getField body "public_url")) ∧
    (∃ r, postDeployments db now body =
        ({ db with deployments := db.deployments ++ [r],
                   nextDeployId := db.nextDeployId + 1 },
         .okDeployment r) ∧
       r.environment = withDefault (getField body "environment") (.str "prod") ∧
       r.version = orNull (getField body "version") ∧
       r.note = orNull (getField body "note") ∧
       r.deployed_by = orNull (getField body "deployed_by") ∧
       r.deployed_at = now) ∧
    (∃ r, postUsage db now body =
        ({ db with usage_events := db.usage_events ++ [r],
                   nextUsageId := db.nextUsageId + 1 },
         .okUsage r) ∧
       r.kind = withDefault (getField body "kind") (.str "request") ∧
       r.method = orNull (getField body "method") ∧
       r.path = orNull (getField body "path") ∧
       r.status = orNull (getField body "status") ∧
       r.ip = orNull (getField body "ip") ∧
       r.user_agent = orNull (getField body "user_agent") ∧
       r.error_message = orNull (getField body "error_message") ∧
       r.ts = now) := by
  refine ⟨?_, ?_, ?_⟩
  · refine ⟨(upsertApp db now (getField body "slug") (getField body "name")
      (orNull (getField body "repo_url"))
      (orNull (getField body "public_url"))).2, ?_, ?_, ?_, ?_⟩
    · simp [postApps, hs, hn]
    · exact (upsertAppRow db now _ _ _ _).2.1
    · exact (upsertAppRow db now _ _ _ _).2.2.1
    · exact (upsertAppRow db now _ _ _ _).2.2.2
  · refine ⟨({ id := db.nextDeployId, app_id := a.id, environment := withDefault (getField body "environment") (.str "prod"), version := orNull (getField body "version"), note := orNull (getField body "note"), deployed_by := orNull (getField body "deployed_by"), deployed_at := now } : DeploymentRow), ?_, rfl, rfl, rfl, rfl, rfl⟩
    simp [postDeployments, hA, hfind]
  · refine ⟨({ id := db.nextUsageId, app_id := a.id, ts := now, kind := withDefault (getField body "kind") (.str "request"), method := orNull (getField body "method"), path := orNull (getField body "path"), status := orNull (getField body "status"), ip := orNull (getField body "ip"), user_agent := orNull (getField body "user_agent"), error_message := orNull (getField body "error_message") } : UsageEventRow), ?_, rfl, rfl, rfl, rfl, rfl, rfl, rfl, rfl⟩
    simp [postUsage, hA, hfind]

/-- C9 witness: a concrete accepted request on the fixture database, with
all optional fields omitted, stores the stated defaults. -/
theorem claimC9OptionalFieldsAmendedWitness :
    (∃ r, (postApps sampleDB 300
        [("slug", .str "x"), ("name", .str "N"), ("app_slug", .str "blog")]).2
        = .okApp r ∧
       r.name = getField [("slug", JSVal.str "x"), ("name", JSVal.str "N"),
          ("app_slug", JSVal.str "blog")] "name" ∧
       r.repo_url = orNull (getField [("slug", JSVal.str "x"),
          ("name", JSVal.str "N"), ("app_slug", JSVal.str "blog")] "repo_url") ∧
       r.public_url = orNull (getField [("slug", JSVal.str "x"),
          ("name", JSVal.str "N"), ("app_slug", JSVal.str "blog")] "public_url")) ∧
    (∃ r, postDeployments sampleDB 300
        [("slug", .str "x"), ("name", .str "N"), ("app_slug", .str "blog")] =
        ({ sampleDB with deployments := sampleDB.deployments ++ [r], nextDeployId := sampleDB.nextDeployId + 1 },
         .okDeployment r) ∧
       r.environment = withDefault (getField [("slug", JSVal.str "x"),
          ("name", JSVal.str "N"), ("app_slug", JSVal.str "blog")] "environment")
          (.str "prod") ∧
       r.version = orNull (getField [("slug", JSVal.str "x"),
          ("name", JSVal.str "N"), ("app_slug", JSVal.str "blog")] "version") ∧
       r.note = orNull (getField [("slug", JSVal.str "x"),
          ("name", JSVal.str "N"), ("app_slug", JSVal.str "blog")] "note") ∧
       r.deployed_by = orNull (getField [("slug", JSVal.str "x"),
          ("name", JSVal.str "N"), ("app_slug", JSVal.str "blog")] "deployed_by") ∧
       r.deployed_at = 300) ∧
    (∃ r, postUsage sampleDB 300
        [("slug", .str "x"), ("name", .str "N"), ("app_slug", .str "blog")] =
        ({ sampleDB with usage_events := sampleDB.usage_events ++ [r], nextUsageId := sampleDB.nextUsageId + 1 },
         .okUsage r) ∧
       r.kind = withDefault (getField [("slug", JSVal.str "x"),
          ("name", JSVal.str "N"), ("app_slug", JSVal.str "blog")] "kind")
          (.str "request") ∧
       r.method = orNull (getField [("slug", JSVal.str "x"),
          ("name", JSVal.str "N"), ("app_slug", JSVal.str "blog")] "method") ∧
       r.path = orNull (getField [("slug", JSVal.str "x"),
          ("name", JSVal.str "N"), ("app_slug", JSVal.str "blog")] "path") ∧
       r.status = orNull (getField [("slug", JSVal.str "x"),
          ("name", JSVal.str "N"), ("app_slug", JSVal.str "blog")] "status") ∧
       r.ip = orNull (getField [("slug", JSVal.str "x"),
          ("name", JSVal.str "N"), ("app_slug", JSVal.str "blog")] "ip") ∧
       r.user_agent = orNull (getField [("slug", JSVal.str "x"),
          ("name", JSVal.str "N"), ("app_slug", JSVal.str "blog")] "user_agent") ∧
       r.error_message = orNull (getField [("slug", JSVal.str "x"),
          ("name", JSVal.str "N"), ("app_slug", JSVal.str "blog")] "error_message") ∧
       r.ts = 300) :=
  claimC9OptionalFieldsAmended sampleDB 300
    [("slug", .str "x"), ("name", .str "N"), ("app_slug", .str "blog")]
    sampleApp (by decide) (by decide) (by decide) (by decide)

end UsageDashboard
